import Mathlib

/-!
Verification of `ipyvolume/embed.py`: a shallow embedding of the module's
path handling, template rendering, asset download helpers and the
`embed_html` orchestrator, together with theorems settling the spec claims.

Paths are modelled as plain strings; the `os.path` (posixpath) operations
the source calls are translated faithfully from their POSIX semantics.
Filesystem and network effects are made explicit: each embedded operation
threads a `World` (current directory plus the set of existing paths) and
emits a trace of `Event`s.
-/

/-- The POSIX path separator character. -/
def slash : Char := '/'

/-- `os.path.isabs`: a POSIX path is absolute iff it begins with a slash. -/
def isAbsStr (p : String) : Bool :=
  match p.data with
  | [] => false
  | c :: _ => c = slash

/-- `os.path.join(a, b)`: if `b` is absolute the result is `b`; otherwise
`b` is appended, inserting a separator unless `a` is empty or already
separator-terminated. -/
def pJoin (a b : String) : String :=
  if isAbsStr b then b
  else if a.data = [] ∨ a.data.getLast? = some slash then String.mk (a.data ++ b.data)
  else String.mk (a.data ++ slash :: b.data)

/-- `str.split('/')` on the character list: splits on every slash and keeps
empty pieces, exactly like Python's `split` with an explicit separator. -/
def splitSlash : List Char → List (List Char)
  | [] => [[]]
  | c :: rest =>
    let r := splitSlash rest
    if c = slash then [] :: r
    else
      match r with
      | [] => [[c]]
      | h :: t => (c :: h) :: t

/-- `'/'.join(...)` on character-list components. -/
def intercalateSlash : List (List Char) → List Char
  | [] => []
  | [c] => c
  | c :: rest => c ++ slash :: intercalateSlash rest

/-- The component `"."` as a character list. -/
def dotComp : List Char := ['.']

/-- The component `".."` as a character list. -/
def dotdotComp : List Char := ['.', '.']

/-- The component-normalisation loop of `posixpath.normpath`: drops empty
and `"."` components, resolves `".."` against the accumulated prefix
(kept in reverse), and keeps leading `".."`s of relative paths. -/
def normLoop (initSl : Bool) (acc : List (List Char)) : List (List Char) → List (List Char)
  | [] => acc.reverse
  | comp :: rest =>
    if comp = [] ∨ comp = dotComp then normLoop initSl acc rest
    else if comp ≠ dotdotComp ∨ (¬ initSl ∧ acc = []) ∨ acc.head? = some dotdotComp then
      normLoop initSl (comp :: acc) rest
    else
      match acc with
      | [] => normLoop initSl [] rest
      | _ :: accTail => normLoop initSl accTail rest

/-- The number of leading slashes `posixpath.normpath` preserves: none for
a relative path, two for the POSIX double-slash root, one otherwise. -/
def initSlashes (p : String) : Nat :=
  if isAbsStr p then
    match p.data with
    | _ :: c2 :: c3 :: _ => if c2 = slash ∧ c3 ≠ slash then 2 else 1
    | [_, c2] => if c2 = slash then 2 else 1
    | _ => 1
  else 0

/-- `posixpath.normpath`, including the POSIX double-slash root special
case: an empty path normalises to `"."`. -/
def normpath (p : String) : String :=
  if p.data = [] then "."
  else
    let comps := normLoop (initSlashes p ≠ 0) [] (splitSlash p.data)
    let full := List.replicate (initSlashes p) slash ++ intercalateSlash comps
    if full = [] then "." else String.mk full

/-- `os.path.abspath` with an explicit current working directory: join with
the cwd when relative, then normalise. -/
def abspath (cwd p : String) : String :=
  if isAbsStr p then normpath p else normpath (pJoin cwd p)

/-- `posixpath.dirname`: everything before the final slash, with trailing
slashes stripped unless the head consists only of slashes. -/
def dirname (p : String) : String :=
  let rev := p.data.reverse
  let headRev := rev.drop (rev.takeWhile (fun c => c ≠ slash)).length
  if headRev ≠ [] ∧ headRev.any (fun c => c ≠ slash) then
    String.mk (headRev.dropWhile (fun c => c = slash)).reverse
  else String.mk headRev.reverse

/-- Length of the common prefix of two component lists, as computed by the
comparison loop inside `posixpath.relpath`. -/
def commonLen : List (List Char) → List (List Char) → Nat
  | a :: as, b :: bs => if a = b then commonLen as bs + 1 else 0
  | _, _ => 0

/-- Nonempty slash-separated components of a path string. -/
def pathComps (p : String) : List (List Char) :=
  (splitSlash p.data).filter (fun c => c ≠ [])

/-- `posixpath.relpath(p, start)` with an explicit cwd: both arguments are
made absolute, split into components, and the result climbs out of the
uncommon part of `start` before descending into `p`. -/
def relpath (cwd p start : String) : String :=
  let startList := pathComps (abspath cwd start)
  let pathList := pathComps (abspath cwd p)
  let i := commonLen startList pathList
  let rel := List.replicate (startList.length - i) dotdotComp ++ pathList.drop i
  if rel = [] then "." else String.mk (intercalateSlash rel)

/-- Python's `str.startswith` restricted to plain string prefixes. -/
def strStartsWith (p pre : String) : Bool := pre.data.isPrefixOf p.data

/-- The characters of the last slash-separated component of a path, in
reverse order. -/
def lastCompRev (p : String) : List Char := p.data.reverse.takeWhile (fun c => c ≠ slash)

/-- Lookup in a Python-`dict`-like association list built from a list of
pairs: a later binding of the same key overrides an earlier one. -/
def dlookup (m : List (String × String)) (k : String) : Option String :=
  match m with
  | [] => none
  | (k2, v) :: rest =>
    match dlookup rest k with
    | some v2 => some v2
    | none => if k2 = k then some v else none

/-- The opening brace character, written via its code point. -/
def lbrace : Char := Char.ofNat 123

/-- The closing brace character, written via its code point. -/
def rbrace : Char := Char.ofNat 125

/-- A parsed piece of a format template: literal text or a named
placeholder. -/
inductive Tok where
  | lit (s : String)
  | ph (name : String)
deriving DecidableEq

/-- Reads a replacement-field name up to the closing brace; `none` when the
brace is missing. -/
def takeName : List Char → Option (List Char × List Char)
  | [] => none
  | c :: rest =>
    if c = rbrace then some ([], rest)
    else
      match takeName rest with
      | none => none
      | some (n, r) => some (c :: n, r)

/-- Prepends literal text to a token list, merging with a leading literal
token. -/
def prependLit (s : String) : List Tok → List Tok
  | Tok.lit s2 :: rest => Tok.lit (s ++ s2) :: rest
  | ts => Tok.lit s :: ts

/-- Errors raised by the embedded Python code. -/
inductive PyErr where
  | valueError (msg : String)
  | keyError (key : String)
  | nameError (name : String)
  | ioError (msg : String)
  | downloadError (url : String)
deriving DecidableEq

/-- One pass of `str.format` template parsing: doubled braces are escapes,
a lone opening brace introduces a replacement field read up to the closing
brace, and unmatched braces are format errors. Replacement-field names are
modelled as simple keys, which matches every template this module builds.
The fuel argument bounds recursion and always suffices for the input
length. -/
def parseTemplateAux : Nat → List Char → Except PyErr (List Tok)
  | 0, _ => Except.error (PyErr.valueError "format fuel exhausted")
  | _ + 1, [] => Except.ok []
  | fuel + 1, c :: rest =>
    if c = lbrace then
      match rest with
      | [] => Except.error (PyErr.valueError "Single brace encountered in format string")
      | c2 :: rest2 =>
        if c2 = lbrace then (prependLit "\x7b") <$> parseTemplateAux fuel rest2
        else
          match takeName (c2 :: rest2) with
          | none => Except.error (PyErr.valueError "Single brace encountered in format string")
          | some (n, r) => (fun ts => Tok.ph (String.mk n) :: ts) <$> parseTemplateAux fuel r
    else if c = rbrace then
      match rest with
      | [] => Except.error (PyErr.valueError "Single brace encountered in format string")
      | c2 :: rest2 =>
        if c2 = rbrace then (prependLit "\x7d") <$> parseTemplateAux fuel rest2
        else Except.error (PyErr.valueError "Single brace encountered in format string")
    else (prependLit (String.mk [c])) <$> parseTemplateAux fuel rest

/-- Parses a `str.format` template into tokens. -/
def parseTemplate (t : String) : Except PyErr (List Tok) :=
  parseTemplateAux (t.data.length + 1) t.data

/-- Renders parsed tokens against a mapping; a placeholder absent from the
mapping is a `KeyError`, exactly as in `str.format`. -/
def renderToks (m : List (String × String)) : List Tok → Except PyErr String
  | [] => Except.ok ""
  | Tok.lit s :: rest => (fun r => s ++ r) <$> renderToks m rest
  | Tok.ph name :: rest =>
    match dlookup m name with
    | none => Except.error (PyErr.keyError name)
    | some v => (fun r => v ++ r) <$> renderToks m rest

/-- `template.format(**mapping)` for keyword-only replacement fields. -/
def pyFormat (t : String) (m : List (String × String)) : Except PyErr String :=
  match parseTemplate t with
  | Except.error e => Except.error e
  | Except.ok toks => renderToks m toks

/-- The module-level HTML template of `embed.py` (`html_template`). -/
def html_template : String :=
  "<!DOCTYPE html>\n<html lang=\"en\">\n<head>\n    <meta charset=\"UTF-8\">\n    <title>\x7btitle\x7d</title>\n    \x7bextra_script_head\x7d\n</head>\n<body>\n\x7bbody_pre\x7d\n\x7bsnippet\x7d\n\x7bbody_post\x7d\n</body>\n</html>\n"

instance {ε α : Type} [DecidableEq ε] [DecidableEq α] : DecidableEq (Except ε α) := fun x y =>
  match x, y with
  | .ok a, .ok b => if h : a = b then .isTrue (by rw [h]) else .isFalse (by simp [h])
  | .error a, .error b => if h : a = b then .isTrue (by rw [h]) else .isFalse (by simp [h])
  | .ok _, .error _ => .isFalse (by simp)
  | .error _, .ok _ => .isFalse (by simp)

/-- Observable side effects of the embedded code, in execution order. -/
inductive Event where
  | mkdirs (path : String)
  | downloadFile (url : String) (path : String)
  | downloadBytes (url : String)
  | copyFile (src : String) (dst : String)
  | extractAll (dest : String)
  | renameDir (src : String) (dst : String)
  | writeFile (path : String) (content : String)
deriving DecidableEq

/-- Whether an event performs network I/O. -/
def isNetwork : Event → Bool
  | Event.downloadFile _ _ => true
  | Event.downloadBytes _ => true
  | _ => false

/-- Whether an event mutates the local disk (file or directory). -/
def mutatesDisk : Event → Bool
  | Event.downloadBytes _ => false
  | _ => true

/-- The ambient filesystem: a current working directory and the set of
paths that exist. -/
structure World where
  cwd : String
  fs : List String
deriving DecidableEq

/-- `os.path.exists`. -/
def pexists (w : World) (p : String) : Bool := w.fs.contains p

/-- Records that a path now exists. -/
def addPath (w : World) (p : String) : World := ⟨w.cwd, p :: w.fs⟩

/-- Records that a path no longer exists (after a rename). -/
def removePath (w : World) (p : String) : World := ⟨w.cwd, w.fs.filter (fun q => q ≠ p)⟩

/-- Records that several paths now exist. -/
def addPaths (w : World) (ps : List String) : World := ⟨w.cwd, ps ++ w.fs⟩

/-- Ambient data the module reads from its environment: installed-package
versions, the module's installation directory, the network's behaviour,
and the external `ipywidgets.embed` snippet generator. `zipList url` is
the name list of the archive fetched from `url` (`none` when opening or
extracting it fails) and `zipErr url` is the text of the underlying
exception in that case. `snippet` models `ipywidgets.embed.embed_snippet`
as a function of the `embed_url` argument, the widgets and state being
fixed for the call. -/
structure Oracle where
  modulePath : String
  versionJS : String
  htmlManagerVersion : String
  netFail : String → Bool
  zipList : String → Option (List String)
  zipErr : String → String
  minimalHtml : String
  snippet : String → String

/-- Result of running an embedded effectful operation: the Python return
value or exception, the filesystem afterwards, and the events emitted. -/
structure Eff (α : Type) where
  res : Except PyErr α
  world : World
  trace : List Event
deriving DecidableEq

/-- Sequencing of effectful steps: an exception aborts, and traces
concatenate. -/
def Eff.andThen {α β : Type} (e : Eff α) (f : α → World → Eff β) : Eff β :=
  match e.res with
  | Except.error err => ⟨Except.error err, e.world, e.trace⟩
  | Except.ok a =>
    let r := f a e.world
    ⟨r.res, r.world, e.trace ++ r.trace⟩

/-- Modelled from the spec: `ipyvolume.utils.download_to_file` (the Asset
Fetcher's `fetch_to_file`), whose code is not under `src/`. Per the spec it
retrieves bytes over HTTP and writes them to the destination path; a
network failure surfaces as a retrievable-resource error and the caller
does not retry. -/
def download_to_file (w : World) (o : Oracle) (url path : String) : Eff Unit :=
  if o.netFail url then ⟨Except.error (PyErr.downloadError url), w, [Event.downloadFile url path]⟩
  else ⟨Except.ok (), addPath w path, [Event.downloadFile url path]⟩

/-- Modelled from the spec: `ipyvolume.utils.download_to_bytes` (the Asset
Fetcher's `fetch`), whose code is not under `src/`. It retrieves bytes
over HTTP without touching the disk; the bytes themselves are opaque and
their zip structure is read off the oracle. -/
def download_to_bytes (w : World) (o : Oracle) (url : String) : Eff Unit :=
  if o.netFail url then ⟨Except.error (PyErr.downloadError url), w, [Event.downloadBytes url]⟩
  else ⟨Except.ok (), w, [Event.downloadBytes url]⟩

/-- The remote URL `save_ipyvolumejs` downloads from. -/
def urlIpyvolume (version : String) : String :=
  "https://unpkg.com/ipyvolume@" ++ version ++ "/dist/index.js"

/-- The developer build artifact path checked by `save_ipyvolumejs`:
`os.path.join(os.path.abspath(ipyvolume.__path__[0]), "..", "js", "dist", "index.js")`. -/
def devfilePath (o : Oracle) : String :=
  pJoin (pJoin (pJoin (pJoin o.modulePath "..") "js") "dist") "index.js"

/-- The bundled `three.js` source file inside the installed module:
`os.path.join(os.path.abspath(ipyvolume.__path__[0]), "static", "three.js")`. -/
def threejsSrc (o : Oracle) : String := pJoin (pJoin o.modulePath "static") "three.js"

/-- `save_ipyvolumejs`: writes `ipyvolume.js` into `folderpath` (from the
local developer build when `devmode` is set and the artifact exists,
otherwise by download), then copies `three.js` beside it. -/
def save_ipyvolumejs (w : World) (o : Oracle) (folderpath version : String) (devmode : Bool) :
    Eff String :=
  let url := urlIpyvolume version
  let filepath := pJoin folderpath "ipyvolume.js"
  let devfile := devfilePath o
  let step1 : Eff Unit :=
    if devmode && pexists w devfile then
      let s : World × List Event :=
        if folderpath ≠ "" ∧ ¬ pexists w folderpath then
          (addPath w folderpath, [Event.mkdirs folderpath])
        else (w, [])
      ⟨Except.ok (), addPath s.1 filepath, s.2 ++ [Event.copyFile devfile filepath]⟩
    else download_to_file w o url filepath
  step1.andThen (fun _ w1 =>
    let directory := dirname filepath
    let dst := pJoin directory "three.js"
    ⟨Except.ok "ipyvolume.js", addPath w1 dst, [Event.copyFile (threejsSrc o) dst]⟩)

/-- The remote URL `save_requirejs` downloads from. -/
def urlRequire (version : String) : String :=
  "https://cdnjs.cloudflare.com/ajax/libs/require.js/" ++ version ++ "/require.min.js"

/-- `save_requirejs`: downloads require.js into `folderpath` under a
version-suffixed filename. -/
def save_requirejs (w : World) (o : Oracle) (folderpath version : String) : Eff String :=
  let filename := "require.min.v" ++ version ++ ".js"
  (download_to_file w o (urlRequire version) (pJoin folderpath filename)).andThen
    (fun _ w1 => ⟨Except.ok filename, w1, []⟩)

/-- The remote URL `save_embed_js` downloads from. -/
def urlEmbed (version : String) : String :=
  "https://unpkg.com/@jupyter-widgets/html-manager@" ++ version ++ "/dist/embed-amd.js"

/-- The filename produced by `save_embed_js` for a given html-manager
version (`version[1:]` drops the leading semver marker). -/
def embedFname (version : String) : String := "embed-amd_v" ++ version.drop 1 ++ ".js"

/-- `save_embed_js`: downloads the ipywidgets embedding script into
`folderpath` under a version-suffixed filename. -/
def save_embed_js (w : World) (o : Oracle) (folderpath version : String) : Eff String :=
  let filename := embedFname version
  (download_to_file w o (urlEmbed version) (pJoin folderpath filename)).andThen
    (fun _ w1 => ⟨Except.ok filename, w1, []⟩)

/-- The folder name `save_font_awesome` produces. -/
def faFolderName (version : String) : String := "font-awesome-" ++ version

/-- The remote URL `save_font_awesome` downloads from. -/
def urlFontAwesome (version : String) : String :=
  "http://fontawesome.io/assets/font-awesome-" ++ version ++ ".zip"

/-- The wrapped extraction-failure message of `save_font_awesome`
(expansion of `'Could not unzip content from: {0}\n{1}'.format(url, err)`). -/
def faErrMsg (url err : String) : String :=
  "Could not unzip content from: " ++ url ++ "\n" ++ err

/-- `save_font_awesome`: returns at once when the versioned folder already
exists; otherwise downloads the archive, reads its first entry name,
extracts it under `dirpath`, wraps any failure inside the `try` block as
an `IOError` carrying the URL and cause, and finally renames the top-level
extracted directory to the versioned folder name. An empty name list makes
`namelist()[0]` fail inside the `try` block, so it is wrapped the same
way. -/
def save_font_awesome (w : World) (o : Oracle) (dirpath version : String) : Eff String :=
  let folder_name := faFolderName version
  let folder_path := pJoin dirpath folder_name
  if pexists w folder_path then ⟨Except.ok folder_name, w, []⟩
  else
    let url := urlFontAwesome version
    (download_to_bytes w o url).andThen (fun _ w1 =>
      match o.zipList url with
      | none => ⟨Except.error (PyErr.ioError (faErrMsg url (o.zipErr url))), w1, []⟩
      | some names =>
        match names.head? with
        | none => ⟨Except.error (PyErr.ioError (faErrMsg url (o.zipErr url))), w1, []⟩
        | some top =>
          let w2 := addPaths w1 (names.map (fun n => pJoin dirpath n))
          let src := pJoin dirpath top
          ⟨Except.ok folder_name, addPath (removePath w2 src) folder_path,
            [Event.extractAll dirpath, Event.renameDir src folder_path]⟩)

/-- The arguments of `embed_html`, with the source's default values.
`widgets` is opaque to the module and lives in the oracle. -/
structure EmbedArgs where
  filepath : String
  makedirs : Bool := true
  title : String := "IPyVolume Widget"
  all_states : Bool := false
  offline : Bool := false
  offline_req : Bool := true
  scripts_path : String := "scripts_folder"
  drop_defaults : Bool := false
  template : String := html_template
  template_options : List (String × String) :=
    [("extra_script_head", ""), ("body_pre", ""), ("body_post", "")]
  devmode : Bool := false
deriving DecidableEq

/-- The `template_opts` dict of `embed_html`: defaults including the
`title` argument, updated with the caller's `template_options` (later
bindings override). -/
def embedTemplateOpts (a : EmbedArgs) : List (String × String) :=
  [("title", a.title), ("extra_script_head", ""), ("body_pre", ""), ("body_post", "")] ++
    a.template_options

/-- The reassigned `scripts_path` of the offline branch: made absolute
relative to the output file's directory when relative. -/
def scriptsAbs (a : EmbedArgs) : String :=
  if isAbsStr a.scripts_path then a.scripts_path
  else pJoin (dirname a.filepath) a.scripts_path

/-- The `rel_script_path` of `embed_html` before normalisation:
`os.path.relpath(scripts_path, os.path.dirname(filepath))`. -/
def relScriptRaw (w : World) (a : EmbedArgs) : String :=
  relpath w.cwd (scriptsAbs a) (dirname a.filepath)

/-- The normalised `rel_script_path`: `"."` becomes the empty prefix,
anything else gets a trailing separator. -/
def relScriptNorm (w : World) (a : EmbedArgs) : String :=
  if relScriptRaw w a = "." then "" else relScriptRaw w a ++ "/"

/-- The message of the path-escape `ValueError`. -/
def pathEscapeMsg : String := "The scripts_path must have the same root directory as the filepath"

/-- The `offline_snippet` wrapper (expansion of the triple-quoted
`.format` literal in `embed_html`). -/
def wrapperSnippet (rel fname_fontawe fname_require snip : String) : String :=
  "\n<link href=\"" ++ rel ++ fname_fontawe ++
    "/css/font-awesome.min.css\" rel=\"stylesheet\">    \n<script src=\"" ++ rel ++
    fname_require ++ "\" crossorigin=\"anonymous\"></script>\n" ++ snip ++ "\n        "

/-- The tail of `embed_html`'s offline branch, from `embed_snippet` to the
file write. The four locals are only assigned inside the `offline_req`
branch, so they arrive as `Option`s; referencing an unbound one raises the
corresponding undefined-variable error, in the source's evaluation order
(`rel_script_path` first at `rel_script_path+fname_embed`, then the
`.format` arguments). -/
def embedTail (w : World) (o : Oracle) (a : EmbedArgs)
    (rel fname_require fname_embed fname_fontawe : Option String) : Eff Unit :=
  match rel with
  | none => ⟨Except.error (PyErr.nameError "rel_script_path"), w, []⟩
  | some r =>
    match fname_embed with
    | none => ⟨Except.error (PyErr.nameError "fname_embed"), w, []⟩
    | some fe =>
      let snip := o.snippet (r ++ fe)
      match fname_fontawe with
      | none => ⟨Except.error (PyErr.nameError "fname_fontawe"), w, []⟩
      | some fa =>
        match fname_require with
        | none => ⟨Except.error (PyErr.nameError "fname_require"), w, []⟩
        | some fr =>
          let offline_snippet := wrapperSnippet r fa fr snip
          let opts2 := embedTemplateOpts a ++ [("snippet", offline_snippet)]
          match pyFormat a.template opts2 with
          | Except.error e => ⟨Except.error e, w, []⟩
          | Except.ok html =>
            ⟨Except.ok (), addPath w a.filepath, [Event.writeFile a.filepath html]⟩

/-- `embed_html`: creates the output directory when asked, then either
delegates to the external minimal-HTML writer and copies `three.js` beside
the output (online mode), or runs the offline branch: when `offline_req`
is set it resolves `scripts_path`, rejects a path escaping the output
directory's subtree, saves the four assets and renders the wrapped
snippet; when `offline_req` is clear it falls through to the tail with the
branch's locals unbound. -/
def embed_html (w : World) (o : Oracle) (a : EmbedArgs) : Eff Unit :=
  let dir_name_dst := dirname (abspath w.cwd a.filepath)
  let start : Eff Unit :=
    if !pexists w dir_name_dst && a.makedirs then
      ⟨Except.ok (), addPath w dir_name_dst, [Event.mkdirs dir_name_dst]⟩
    else ⟨Except.ok (), w, []⟩
  start.andThen (fun _ w1 =>
    if !a.offline then
      let directory := dirname a.filepath
      let dst := pJoin directory "three.js"
      ⟨Except.ok (), addPath (addPath w1 a.filepath) dst,
        [Event.writeFile a.filepath o.minimalHtml, Event.copyFile (threejsSrc o) dst]⟩
    else
      if a.offline_req then
        if strStartsWith (relScriptRaw w a) ".." then
          ⟨Except.error (PyErr.valueError pathEscapeMsg), w1, []⟩
        else
          (save_ipyvolumejs w1 o dir_name_dst o.versionJS a.devmode).andThen (fun _ w2 =>
            (save_requirejs w2 o (scriptsAbs a) "2.3.4").andThen (fun fname_require w3 =>
              (save_embed_js w3 o (scriptsAbs a) o.htmlManagerVersion).andThen
                (fun fname_embed w4 =>
                  (save_font_awesome w4 o (scriptsAbs a) "4.7.0").andThen
                    (fun fname_fontawe w5 =>
                      embedTail w5 o a (some (relScriptNorm w a)) (some fname_require)
                        (some fname_embed) (some fname_fontawe)))))
      else
        embedTail w1 o a none none none none)

/-! ## Basic lemmas about the model -/

lemma strMk_data (l : List Char) : (String.mk l).data = l := rfl

lemma strData_append (a b : String) : (a ++ b).data = a.data ++ b.data := rfl

lemma pexists_addPath_self (w : World) (p : String) : pexists (addPath w p) p = true := by
  simp [pexists, addPath]

lemma pexists_addPath (w : World) (p q : String) :
    pexists (addPath w p) q = true ↔ (q = p ∨ pexists w q = true) := by
  simp [pexists, addPath, List.contains_cons]

/-- A concrete oracle used by witness instantiations. -/
def wOracle : Oracle :=
  { modulePath := "/usr/lib/python3/ipyvolume"
  , versionJS := "0.5.1"
  , htmlManagerVersion := "^0.18.0"
  , netFail := fun _ => false
  , zipList := fun _ => some ["font-awesome-4.7.0/", "font-awesome-4.7.0/css/font-awesome.min.css"]
  , zipErr := fun _ => "Bad zip file"
  , minimalHtml := "<html></html>"
  , snippet := fun u => "<script src=\"" ++ u ++ "\"></script>" }

/-- Claim C2: every call to `embed_html` with `offline=True` and
`offline_req=False` reaches the snippet-construction step with
`rel_script_path`, `fname_embed`, `fname_require` and `fname_fontawe`
unassigned, so it ends in an undefined-variable error instead of
completing normally. -/
theorem embed_html_offline_noreq_undefined (w : World) (o : Oracle) (a : EmbedArgs)
    (hoff : a.offline = true) (hreq : a.offline_req = false) :
    (embed_html w o a).res = Except.error (PyErr.nameError "rel_script_path") := by
  unfold embed_html
  by_cases hmk : (pexists w (dirname (abspath w.cwd a.filepath)) = false ∧ a.makedirs = true)
  · simp [hmk, Eff.andThen, hoff, hreq, embedTail]
  · simp [hmk, Eff.andThen, hoff, hreq, embedTail]

def c2Args : EmbedArgs := { filepath := "/out/page.html", offline := true, offline_req := false }

theorem embed_html_offline_noreq_undefined_witness :
    c2Args.offline = true ∧ c2Args.offline_req = false ∧
    (embed_html ⟨"/", ["/out"]⟩ wOracle c2Args).res =
      Except.error (PyErr.nameError "rel_script_path") :=
  ⟨rfl, rfl, embed_html_offline_noreq_undefined _ _ _ rfl rfl⟩

lemma save_font_awesome_exists_eq (w : World) (o : Oracle) (dirpath version : String)
    (hex : pexists w (pJoin dirpath (faFolderName version)) = true) :
    save_font_awesome w o dirpath version = ⟨Except.ok (faFolderName version), w, []⟩ := by
  simp [save_font_awesome, hex]

/-- Claim C3: when the `font-awesome-<version>` folder already exists
under the destination, `save_font_awesome` performs no network request and
no write and returns the folder name unchanged; any successful call
returns that same name and leaves the folder in place, so an immediately
repeated call downloads nothing, and any single call downloads at most
once. -/
theorem save_font_awesome_idempotent (w : World) (o : Oracle) (dirpath version : String)
    (hex : pexists w (pJoin dirpath (faFolderName version)) = true) :
    save_font_awesome w o dirpath version = ⟨Except.ok (faFolderName version), w, []⟩ ∧
    (∀ w2 r, (save_font_awesome w2 o dirpath version).res = Except.ok r →
      r = faFolderName version ∧
      save_font_awesome (save_font_awesome w2 o dirpath version).world o dirpath version =
        ⟨Except.ok (faFolderName version), (save_font_awesome w2 o dirpath version).world, []⟩) ∧
    (∀ w2 : World, ((save_font_awesome w2 o dirpath version).trace.countP
        (fun e => isNetwork e)) ≤ 1) := by
  refine ⟨save_font_awesome_exists_eq w o dirpath version hex, ?_, ?_⟩
  · intro w2 r hr
    by_cases hex2 : pexists w2 (pJoin dirpath (faFolderName version)) = true
    · rw [save_font_awesome_exists_eq w2 o dirpath version hex2] at hr ⊢
      simp at hr
      exact ⟨hr.symm, save_font_awesome_exists_eq _ o dirpath version hex2⟩
    · simp only [Bool.not_eq_true] at hex2
      unfold save_font_awesome at hr ⊢
      simp only [hex2] at hr ⊢
      by_cases hnf : o.netFail (urlFontAwesome version) = true
      · simp [download_to_bytes, hnf, Eff.andThen] at hr
      · simp only [Bool.not_eq_true] at hnf
        simp only [download_to_bytes, hnf, Eff.andThen] at hr ⊢
        cases hz : o.zipList (urlFontAwesome version) with
        | none => simp [hz] at hr
        | some names =>
          cases hh : names.head? with
          | none => simp [hz, hh] at hr
          | some top =>
            simp only [hz, hh] at hr ⊢
            simp at hr ⊢
            exact ⟨hr.symm, by simp [save_font_awesome, pexists_addPath_self]⟩
  · intro w2
    by_cases hex2 : pexists w2 (pJoin dirpath (faFolderName version)) = true
    · rw [save_font_awesome_exists_eq w2 o dirpath version hex2]; simp
    · simp only [Bool.not_eq_true] at hex2
      unfold save_font_awesome
      simp only [hex2]
      by_cases hnf : o.netFail (urlFontAwesome version) = true
      · simp [download_to_bytes, hnf, Eff.andThen, isNetwork]
      · simp only [Bool.not_eq_true] at hnf
        simp only [download_to_bytes, hnf, Eff.andThen]
        cases hz : o.zipList (urlFontAwesome version) with
        | none => simp [hz, isNetwork]
        | some names =>
          cases hh : names.head? with
          | none => simp [hz, hh, isNetwork]
          | some top => simp [hz, hh, isNetwork]

/-- Claim C5: an extraction failure in `save_font_awesome` (corrupt
archive or an archive with no entries) is re-raised as an `IOError` whose
message carries the offending URL and the underlying cause. -/
theorem save_font_awesome_wraps_unzip_failure (w : World) (o : Oracle) (dirpath version : String)
    (hex : pexists w (pJoin dirpath (faFolderName version)) = false)
    (hnet : o.netFail (urlFontAwesome version) = false)
    (hzip : o.zipList (urlFontAwesome version) = none ∨
            o.zipList (urlFontAwesome version) = some []) :
    save_font_awesome w o dirpath version =
      ⟨Except.error (PyErr.ioError
          (faErrMsg (urlFontAwesome version) (o.zipErr (urlFontAwesome version)))),
        w, [Event.downloadBytes (urlFontAwesome version)]⟩ ∧
    (∃ pre mid, faErrMsg (urlFontAwesome version) (o.zipErr (urlFontAwesome version)) =
        pre ++ urlFontAwesome version ++ mid ++ o.zipErr (urlFontAwesome version)) := by
  constructor
  · unfold save_font_awesome
    simp only [hex]
    rcases hzip with hz | hz
    · simp [download_to_bytes, hnet, Eff.andThen, hz]
    · simp [download_to_bytes, hnet, Eff.andThen, hz]
  · exact ⟨"Could not unzip content from: ", "\n", rfl⟩

/-- Claim C7: template rendering is deterministic, identical template and
mapping inputs produce byte-identical output. -/
theorem pyFormat_deterministic (t1 t2 : String) (m1 m2 : List (String × String))
    (ht : t1 = t2) (hm : m1 = m2) : pyFormat t1 m1 = pyFormat t2 m2 := by rw [ht, hm]

/-- Claim C8: in `save_ipyvolumejs`, when devmode is requested and the
developer build artifact exists next to the module, the local file is
copied and no remote fetch happens; otherwise the file is downloaded from
the remote URL. -/
theorem save_ipyvolumejs_devmode_local (w : World) (o : Oracle) (folderpath version : String)
    (devmode : Bool) :
    (devmode = true → pexists w (devfilePath o) = true →
      (∀ e ∈ (save_ipyvolumejs w o folderpath version devmode).trace, isNetwork e = false) ∧
      Event.copyFile (devfilePath o) (pJoin folderpath "ipyvolume.js") ∈
        (save_ipyvolumejs w o folderpath version devmode).trace ∧
      (save_ipyvolumejs w o folderpath version devmode).res = Except.ok "ipyvolume.js") ∧
    ((devmode = false ∨ pexists w (devfilePath o) = false) →
      Event.downloadFile (urlIpyvolume version) (pJoin folderpath "ipyvolume.js") ∈
        (save_ipyvolumejs w o folderpath version devmode).trace) := by
  constructor
  · intro hd hex
    unfold save_ipyvolumejs
    simp only [hd, hex, Bool.and_self]
    by_cases hm : (¬folderpath = "" ∧ pexists w folderpath = false)
    · simp only [Eff.andThen]
      refine ⟨?_, ?_, ?_⟩ <;> simp [hm, isNetwork]
    · simp only [Eff.andThen]
      refine ⟨?_, ?_, ?_⟩ <;> simp [hm, isNetwork]
  · intro hd
    unfold save_ipyvolumejs
    rcases hd with hd | hd
    · by_cases hnf : o.netFail (urlIpyvolume version) = true
      · simp [hd, download_to_file, hnf, Eff.andThen]
      · simp only [Bool.not_eq_true] at hnf
        simp [hd, download_to_file, hnf, Eff.andThen]
    · by_cases hnf : o.netFail (urlIpyvolume version) = true
      · simp [hd, download_to_file, hnf, Eff.andThen]
      · simp only [Bool.not_eq_true] at hnf
        simp [hd, download_to_file, hnf, Eff.andThen]

lemma exceptMap_ok {α β : Type} (f : α → β) (e : Except PyErr α) (b : β)
    (h : (f <$> e) = Except.ok b) : ∃ a, e = Except.ok a ∧ b = f a := by
  cases e with
  | ok a => exact ⟨a, rfl, by simpa [Except.map] using h.symm⟩
  | error k => simp [Except.map] at h

lemma renderToks_missing (m : List (String × String)) (toks : List Tok) (p : String)
    (hmem : Tok.ph p ∈ toks) (hmiss : dlookup m p = none) :
    ∃ k, renderToks m toks = Except.error (PyErr.keyError k) ∧ dlookup m k = none := by
  induction toks with
  | nil => cases hmem
  | cons t rest ih =>
    cases t with
    | lit s =>
      have hmem2 : Tok.ph p ∈ rest := by simpa using hmem
      obtain ⟨k, hk, hk2⟩ := ih hmem2
      exact ⟨k, by simp [renderToks, hk, Except.map], hk2⟩
    | ph name =>
      cases hn : dlookup m name with
      | none => exact ⟨name, by simp [renderToks, hn], hn⟩
      | some v =>
        have hne : p ≠ name := by
          intro h
          rw [h, hn] at hmiss
          cases hmiss
        have hmem2 : Tok.ph p ∈ rest := by
          rcases List.mem_cons.mp hmem with h | h
          · simp at h
            exact absurd h hne
          · exact h
        obtain ⟨k, hk, hk2⟩ := ih hmem2
        exact ⟨k, by simp [renderToks, hn, hk, Except.map], hk2⟩

/-- Claim C6: rendering a template that references a placeholder absent
from the options mapping is a fatal `KeyError` on some missing key, and
the rendering never succeeds, so no blank is silently substituted. -/
theorem pyFormat_missing_key_fatal (t : String) (m : List (String × String)) (toks : List Tok)
    (hp : parseTemplate t = Except.ok toks) (p : String)
    (hmem : Tok.ph p ∈ toks) (hmiss : dlookup m p = none) :
    (∃ k, pyFormat t m = Except.error (PyErr.keyError k) ∧ dlookup m k = none) ∧
    (∀ s, pyFormat t m ≠ Except.ok s) := by
  obtain ⟨k, hk, hk2⟩ := renderToks_missing m toks p hmem hmiss
  have h1 : pyFormat t m = Except.error (PyErr.keyError k) := by
    simp [pyFormat, hp, hk]
  exact ⟨⟨k, h1, hk2⟩, by simp [h1]⟩

lemma dlookup_append (l1 l2 : List (String × String)) (k : String) :
    dlookup (l1 ++ l2) k =
      match dlookup l2 k with
      | some v => some v
      | none => dlookup l1 k := by
  induction l1 with
  | nil =>
    cases h : dlookup l2 k <;> simp [dlookup, h]
  | cons hd tl ih =>
    cases hd with
    | mk k2 v2 =>
      simp only [List.cons_append, dlookup, ih]
      cases h : dlookup l2 k <;> cases h2 : dlookup tl k <;> simp [ih, h, h2]

/-- The parsed token list of `html_template`. -/
def htmlToks : List Tok :=
  [Tok.lit "<!DOCTYPE html>\n<html lang=\"en\">\n<head>\n    <meta charset=\"UTF-8\">\n    <title>",
   Tok.ph "title",
   Tok.lit "</title>\n    ", Tok.ph "extra_script_head",
   Tok.lit "\n</head>\n<body>\n", Tok.ph "body_pre",
   Tok.lit "\n", Tok.ph "snippet",
   Tok.lit "\n", Tok.ph "body_post",
   Tok.lit "\n</body>\n</html>\n"]

set_option maxRecDepth 4000 in
lemma parse_html_template : parseTemplate html_template = Except.ok htmlToks := by decide

/-- Claim C10: caller-supplied `template_options` are merged over the
defaults after the `title` argument is installed, so a `"title"` key in
`template_options` overrides the `title` parameter, and the rendered HTML
carries the overriding value in its `title` element. -/
theorem embed_title_override (a : EmbedArgs) (v : String)
    (h : dlookup a.template_options "title" = some v) :
    dlookup (embedTemplateOpts a) "title" = some v ∧
    (∀ s html,
      pyFormat html_template (embedTemplateOpts a ++ [("snippet", s)]) = Except.ok html →
      ∃ tail,
        html =
          "<!DOCTYPE html>\n<html lang=\"en\">\n<head>\n    <meta charset=\"UTF-8\">\n    <title>" ++
            (v ++ tail)) := by
  have h0 : dlookup (embedTemplateOpts a) "title" = some v := by
    rw [embedTemplateOpts, dlookup_append, h]
  refine ⟨h0, ?_⟩
  intro s html hfmt
  have hm : dlookup (embedTemplateOpts a ++ [("snippet", s)]) "title" = some v := by
    rw [dlookup_append, h0]
    rfl
  rw [pyFormat, parse_html_template] at hfmt
  simp only [htmlToks, renderToks, hm] at hfmt
  obtain ⟨r1, hr1, hb1⟩ := exceptMap_ok _ _ _ hfmt
  obtain ⟨r2, hr2, hb2⟩ := exceptMap_ok _ _ _ hr1
  exact ⟨r2, by rw [hb1, hb2]⟩

theorem save_font_awesome_idempotent_witness :
    pexists ⟨"/", ["/out/scripts/font-awesome-4.7.0"]⟩
        (pJoin "/out/scripts" (faFolderName "4.7.0")) = true ∧
    (save_font_awesome ⟨"/", ["/out/scripts/font-awesome-4.7.0"]⟩ wOracle "/out/scripts" "4.7.0" =
        ⟨Except.ok (faFolderName "4.7.0"), ⟨"/", ["/out/scripts/font-awesome-4.7.0"]⟩, []⟩ ∧
      (∀ w2 r, (save_font_awesome w2 wOracle "/out/scripts" "4.7.0").res = Except.ok r →
        r = faFolderName "4.7.0" ∧
        save_font_awesome (save_font_awesome w2 wOracle "/out/scripts" "4.7.0").world wOracle
            "/out/scripts" "4.7.0" =
          ⟨Except.ok (faFolderName "4.7.0"),
            (save_font_awesome w2 wOracle "/out/scripts" "4.7.0").world, []⟩) ∧
      (∀ w2 : World, ((save_font_awesome w2 wOracle "/out/scripts" "4.7.0").trace.countP
          (fun e => isNetwork e)) ≤ 1)) :=
  ⟨by decide, save_font_awesome_idempotent _ wOracle "/out/scripts" "4.7.0" (by decide)⟩

/-- An oracle whose archive fetches never unzip, used by witness
instantiations. -/
def wOracleBadZip : Oracle := { wOracle with zipList := fun _ => none }

theorem save_font_awesome_wraps_unzip_failure_witness :
    pexists ⟨"/", []⟩ (pJoin "/out/scripts" (faFolderName "4.7.0")) = false ∧
    wOracleBadZip.netFail (urlFontAwesome "4.7.0") = false ∧
    wOracleBadZip.zipList (urlFontAwesome "4.7.0") = none ∧
    (save_font_awesome ⟨"/", []⟩ wOracleBadZip "/out/scripts" "4.7.0" =
        ⟨Except.error (PyErr.ioError
            (faErrMsg (urlFontAwesome "4.7.0") (wOracleBadZip.zipErr (urlFontAwesome "4.7.0")))),
          ⟨"/", []⟩, [Event.downloadBytes (urlFontAwesome "4.7.0")]⟩ ∧
      (∃ pre mid, faErrMsg (urlFontAwesome "4.7.0") (wOracleBadZip.zipErr (urlFontAwesome "4.7.0")) =
          pre ++ urlFontAwesome "4.7.0" ++ mid ++ wOracleBadZip.zipErr (urlFontAwesome "4.7.0"))) :=
  ⟨by decide, rfl, rfl,
    save_font_awesome_wraps_unzip_failure _ _ _ _ (by decide) rfl (Or.inl rfl)⟩

theorem pyFormat_missing_key_fatal_witness :
    parseTemplate "Hi \x7btitle\x7d" = Except.ok [Tok.lit "Hi ", Tok.ph "title"] ∧
    Tok.ph "title" ∈ [Tok.lit "Hi ", Tok.ph "title"] ∧
    dlookup [("x", "y")] "title" = none ∧
    ((∃ k, pyFormat "Hi \x7btitle\x7d" [("x", "y")] = Except.error (PyErr.keyError k) ∧
        dlookup [("x", "y")] k = none) ∧
      (∀ s, pyFormat "Hi \x7btitle\x7d" [("x", "y")] ≠ Except.ok s)) :=
  ⟨by decide, by decide, by decide,
    pyFormat_missing_key_fatal "Hi \x7btitle\x7d" [("x", "y")] [Tok.lit "Hi ", Tok.ph "title"]
      (by decide) "title" (by decide) (by decide)⟩

theorem pyFormat_deterministic_witness :
    ("x \x7ba\x7d" : String) = "x \x7ba\x7d" ∧
    ([("a", "b")] : List (String × String)) = [("a", "b")] ∧
    pyFormat "x \x7ba\x7d" [("a", "b")] = pyFormat "x \x7ba\x7d" [("a", "b")] :=
  ⟨rfl, rfl, pyFormat_deterministic _ _ _ _ rfl rfl⟩

theorem save_ipyvolumejs_devmode_local_witness :
    ((∀ e ∈ (save_ipyvolumejs ⟨"/", [devfilePath wOracle]⟩ wOracle "/out" "0.5.1" true).trace,
        isNetwork e = false) ∧
      Event.copyFile (devfilePath wOracle) (pJoin "/out" "ipyvolume.js") ∈
        (save_ipyvolumejs ⟨"/", [devfilePath wOracle]⟩ wOracle "/out" "0.5.1" true).trace ∧
      (save_ipyvolumejs ⟨"/", [devfilePath wOracle]⟩ wOracle "/out" "0.5.1" true).res =
        Except.ok "ipyvolume.js") ∧
    Event.downloadFile (urlIpyvolume "0.5.1") (pJoin "/out" "ipyvolume.js") ∈
      (save_ipyvolumejs ⟨"/", []⟩ wOracle "/out" "0.5.1" false).trace :=
  ⟨(save_ipyvolumejs_devmode_local _ wOracle "/out" "0.5.1" true).1 rfl (by decide),
    (save_ipyvolumejs_devmode_local ⟨"/", []⟩ wOracle "/out" "0.5.1" false).2 (Or.inl rfl)⟩

def c10Args : EmbedArgs :=
  { filepath := "/out/page.html", template_options := [("title", "Override")] }

theorem embed_title_override_witness :
    dlookup c10Args.template_options "title" = some "Override" ∧
    (dlookup (embedTemplateOpts c10Args) "title" = some "Override" ∧
      (∀ s html,
        pyFormat html_template (embedTemplateOpts c10Args ++ [("snippet", s)]) = Except.ok html →
        ∃ tail,
          html =
            "<!DOCTYPE html>\n<html lang=\"en\">\n<head>\n    <meta charset=\"UTF-8\">\n    <title>" ++
              ("Override" ++ tail))) :=
  ⟨by decide, embed_title_override c10Args "Override" (by decide)⟩

/-- Claim C1 (amended): with `offline=True` and `offline_req=True`, when
the resolved scripts path relative to the output directory starts with a
parent-directory traversal, `embed_html` raises the path-escape
`ValueError` with no network I/O performed and no file content written;
the only disk mutation that may precede the error is the creation of the
output directory itself (when `makedirs` is set and it does not exist). -/
theorem embed_html_path_escape (w : World) (o : Oracle) (a : EmbedArgs)
    (hoff : a.offline = true) (hreq : a.offline_req = true)
    (hesc : strStartsWith (relScriptRaw w a) ".." = true) :
    (embed_html w o a).res = Except.error (PyErr.valueError pathEscapeMsg) ∧
    (∀ e ∈ (embed_html w o a).trace, e = Event.mkdirs (dirname (abspath w.cwd a.filepath))) ∧
    (∀ e ∈ (embed_html w o a).trace, isNetwork e = false) := by
  unfold embed_html
  by_cases hmk : (pexists w (dirname (abspath w.cwd a.filepath)) = false ∧ a.makedirs = true)
  · simp [hmk, Eff.andThen, hoff, hreq, hesc, isNetwork]
  · simp [hmk, Eff.andThen, hoff, hreq, hesc]

def c1World : World := ⟨"/", []⟩

def c1Args : EmbedArgs :=
  { filepath := "/out/page.html", offline := true, offline_req := true,
    scripts_path := "../outside" }

theorem embed_html_path_escape_witness :
    c1Args.offline = true ∧ c1Args.offline_req = true ∧
    strStartsWith (relScriptRaw c1World c1Args) ".." = true ∧
    ((embed_html c1World wOracle c1Args).res = Except.error (PyErr.valueError pathEscapeMsg) ∧
      (∀ e ∈ (embed_html c1World wOracle c1Args).trace,
        e = Event.mkdirs (dirname (abspath c1World.cwd c1Args.filepath))) ∧
      (∀ e ∈ (embed_html c1World wOracle c1Args).trace, isNetwork e = false)) :=
  ⟨rfl, rfl, by decide, embed_html_path_escape c1World wOracle c1Args rfl rfl (by decide)⟩

/-- Claim C1 counterexample: a concrete call with `offline=True`,
`offline_req=True`, a scripts path escaping the output directory,
`makedirs` left at its default and a not-yet-existing output directory.
The path-escape `ValueError` is raised, but the output directory has
already been created on disk before the check, so the claim's "nothing
written to disk" is false at this input. -/
theorem embed_html_path_escape_counterexample :
    (embed_html c1World wOracle c1Args).res = Except.error (PyErr.valueError pathEscapeMsg) ∧
    (embed_html c1World wOracle c1Args).trace = [Event.mkdirs "/out"] ∧
    (embed_html c1World wOracle c1Args).trace.any (fun e => mutatesDisk e) = true := by
  exact ⟨by decide, by decide, by decide⟩

/-! ## Shape of normalised absolute paths -/

def GoodComps (comps : List (List Char)) : Prop :=
  ∀ c ∈ comps, c ≠ [] ∧ ∀ ch ∈ c, ch ≠ slash

def Shaped (p : String) : Prop :=
  ∃ k comps, 1 ≤ k ∧ GoodComps comps ∧
    p.data = List.replicate k slash ++ intercalateSlash comps

lemma splitSlash_no_slash (cs : List Char) :
    ∀ c ∈ splitSlash cs, ∀ ch ∈ c, ch ≠ slash := by
  induction cs with
  | nil =>
    intro c hc ch hch
    simp [splitSlash] at hc
    subst hc
    cases hch
  | cons x rest ih =>
    intro c hc ch hch
    simp only [splitSlash] at hc
    by_cases hx : x = slash
    · rw [if_pos hx] at hc
      rcases List.mem_cons.mp hc with h | h
      · subst h; cases hch
      · exact ih c h ch hch
    · rw [if_neg hx] at hc
      rcases hsp : splitSlash rest with _ | ⟨h0, t0⟩ <;> rw [hsp] at hc
      · simp at hc
        subst hc
        rcases List.mem_singleton.mp hch with h2
        subst h2
        exact hx
      · rcases List.mem_cons.mp hc with h | h
        · subst h
          rcases List.mem_cons.mp hch with h2 | h2
          · subst h2; exact hx
          · exact ih h0 (by rw [hsp]; exact List.mem_cons_self _ _) ch h2
        · exact ih c (by rw [hsp]; exact List.mem_cons_of_mem _ h) ch hch

lemma normLoop_nil (initSl : Bool) (acc : List (List Char)) :
    normLoop initSl acc [] = acc.reverse := rfl

lemma normLoop_cons (initSl : Bool) (acc : List (List Char)) (comp : List Char)
    (rest : List (List Char)) :
    normLoop initSl acc (comp :: rest) =
      if comp = [] ∨ comp = dotComp then normLoop initSl acc rest
      else if comp ≠ dotdotComp ∨ (¬ initSl = true ∧ acc = []) ∨ acc.head? = some dotdotComp then
        normLoop initSl (comp :: acc) rest
      else
        match acc with
        | [] => normLoop initSl [] rest
        | _ :: accTail => normLoop initSl accTail rest := rfl

lemma normLoop_good (initSl : Bool) (comps : List (List Char)) :
    ∀ acc : List (List Char), GoodComps acc →
      (∀ c ∈ comps, ∀ ch ∈ c, ch ≠ slash) →
      GoodComps (normLoop initSl acc comps) := by
  induction comps with
  | nil =>
    intro acc hacc _
    intro c hc
    rw [normLoop_nil] at hc
    exact hacc c (List.mem_reverse.mp hc)
  | cons comp rest ih =>
    intro acc hacc hcomps
    rw [normLoop_cons]
    by_cases h1 : comp = [] ∨ comp = dotComp
    · rw [if_pos h1]
      exact ih acc hacc (fun c hc => hcomps c (List.mem_cons_of_mem _ hc))
    · rw [if_neg h1]
      by_cases h2 : comp ≠ dotdotComp ∨ (¬ initSl = true ∧ acc = []) ∨ acc.head? = some dotdotComp
      · rw [if_pos h2]
        refine ih (comp :: acc) ?_ (fun c hc => hcomps c (List.mem_cons_of_mem _ hc))
        intro c hc
        rcases List.mem_cons.mp hc with h | h
        · subst h
          refine ⟨fun hnil => h1 (Or.inl hnil), hcomps c (List.mem_cons_self _ _)⟩
        · exact hacc c h
      · rw [if_neg h2]
        cases acc with
        | nil =>
          exact ih [] (fun c hc => absurd hc (List.not_mem_nil c))
            (fun c hc => hcomps c (List.mem_cons_of_mem _ hc))
        | cons a t =>
          exact ih t (fun c hc => hacc c (List.mem_cons_of_mem _ hc))
            (fun c hc => hcomps c (List.mem_cons_of_mem _ hc))

lemma isAbsStr_data_ne_nil (p : String) (h : isAbsStr p = true) : ¬ p.data = [] := by
  intro h2
  rw [isAbsStr, h2] at h
  cases h

lemma initSlashes_pos (p : String) (h : isAbsStr p = true) : 1 ≤ initSlashes p := by
  rw [initSlashes, if_pos h]
  rcases hd : p.data with _ | ⟨c1, _ | ⟨c2, _ | ⟨c3, t⟩⟩⟩ <;> simp <;> split <;> omega

lemma replicate_append_ne_nil (k : Nat) (hk : 1 ≤ k) (l : List Char) :
    ¬ List.replicate k slash ++ l = [] := by
  cases k with
  | zero => omega
  | succ n => simp [List.replicate]

lemma shaped_of_parts (k : Nat) (hk : 1 ≤ k) (comps : List (List Char))
    (hcomps : GoodComps comps) :
    Shaped (String.mk (List.replicate k slash ++ intercalateSlash comps)) :=
  ⟨k, comps, hk, hcomps, rfl⟩

lemma normpath_shaped (q : String) (habs : isAbsStr q = true) : Shaped (normpath q) := by
  have hne : ¬ q.data = [] := isAbsStr_data_ne_nil q habs
  have hpos : 1 ≤ initSlashes q := initSlashes_pos q habs
  have hgood : GoodComps (normLoop (decide (initSlashes q ≠ 0)) [] (splitSlash q.data)) :=
    normLoop_good _ _ [] (fun c hc => absurd hc (List.not_mem_nil c))
      (splitSlash_no_slash q.data)
  rw [normpath, if_neg hne, if_neg (replicate_append_ne_nil _ hpos _)]
  exact shaped_of_parts _ hpos _ hgood

lemma pJoin_abs_of_abs_left (a b : String) (ha : isAbsStr a = true) :
    isAbsStr (pJoin a b) = true := by
  rw [pJoin]
  by_cases hb : isAbsStr b = true
  · rw [if_pos hb]; exact hb
  · rw [if_neg hb]
    rcases hd : a.data with _ | ⟨c, t⟩
    · exact absurd hd (isAbsStr_data_ne_nil a ha)
    · have hc : decide (c = slash) = true := by
        rw [isAbsStr, hd] at ha
        exact ha
      split <;> simp [isAbsStr, strMk_data] <;> exact of_decide_eq_true hc

lemma abspath_shaped (cwd p : String) (hcwd : isAbsStr cwd = true) :
    Shaped (abspath cwd p) := by
  rw [abspath]
  by_cases hp : isAbsStr p = true
  · rw [if_pos hp]; exact normpath_shaped p hp
  · rw [if_neg hp]; exact normpath_shaped _ (pJoin_abs_of_abs_left cwd p hcwd)

lemma dirname_eq (p : String) (f hd : List Char) (hsplit : p.data.reverse = f ++ hd)
    (hf : ∀ ch ∈ f, ch ≠ slash) (hhd : hd = [] ∨ hd.head? = some slash) :
    dirname p = if hd ≠ [] ∧ hd.any (fun c => c ≠ slash)
      then String.mk (hd.dropWhile (fun c => c = slash)).reverse
      else String.mk hd.reverse := by
  have htk : p.data.reverse.takeWhile (fun c => decide (¬ c = slash)) = f := by
    rw [hsplit, List.takeWhile_append_of_pos (by intro x hx; simpa using hf x hx)]
    rcases hhd with h | h
    · simp [h]
    · rcases hd with _ | ⟨c, t⟩
      · simp
      · simp at h
        subst h
        simp [List.takeWhile_cons]
  have hdr : p.data.reverse.drop
      (p.data.reverse.takeWhile (fun c => decide (¬ c = slash))).length = hd := by
    rw [htk, hsplit, List.drop_left]
  rw [dirname]
  rw [htk] at hdr
  rw [htk, hdr]

lemma intercalateSlash_cons2 (a b : List Char) (rest : List (List Char)) :
    intercalateSlash (a :: b :: rest) = a ++ slash :: intercalateSlash (b :: rest) := rfl

lemma intercalateSlash_snoc (cs : List (List Char)) (c : List Char) (h : cs ≠ []) :
    intercalateSlash (cs ++ [c]) = intercalateSlash cs ++ slash :: c := by
  induction cs with
  | nil => exact absurd rfl h
  | cons a rest ih =>
    cases rest with
    | nil => rfl
    | cons b rest2 =>
      have h2 : b :: rest2 ≠ [] := by simp
      calc intercalateSlash ((a :: b :: rest2) ++ [c])
          = a ++ slash :: intercalateSlash ((b :: rest2) ++ [c]) := rfl
        _ = a ++ slash :: (intercalateSlash (b :: rest2) ++ slash :: c) := by rw [ih h2]
        _ = (a ++ slash :: intercalateSlash (b :: rest2)) ++ slash :: c := by simp

lemma shaped_props (A : String) (h : Shaped A) :
    A.data ≠ [] ∧ (A.data.getLast? = some slash → ∀ c ∈ A.data, c = slash) := by
  obtain ⟨k, comps, hk, hg, hdata⟩ := h
  constructor
  · rw [hdata]
    exact replicate_append_ne_nil k hk _
  · intro hlast
    rcases List.eq_nil_or_concat' comps with hc | ⟨cs, c, hc⟩
    · subst hc
      intro ch hch
      rw [hdata] at hch
      simp [intercalateSlash] at hch
      exact hch.2
    · exfalso
      subst hc
      have hcne : c ≠ [] := (hg c (by simp)).1
      have hcs : ∀ ch ∈ c, ch ≠ slash := (hg c (by simp)).2
      have hlast2 : (List.replicate k slash ++ intercalateSlash (cs ++ [c])).getLast? =
          c.getLast? := by
        rcases hcs2 : cs with _ | ⟨d, ds⟩
        · show (List.replicate k slash ++ intercalateSlash [c]).getLast? = c.getLast?
          have hic : intercalateSlash [c] = c := rfl
          rw [hic]
          exact List.getLast?_append_of_ne_nil _ hcne
        · rw [← hcs2, intercalateSlash_snoc cs c (by rw [hcs2]; simp)]
          rw [← List.append_assoc]
          rw [List.getLast?_append_of_ne_nil _ (by simp : slash :: c ≠ [])]
          have hsc : slash :: c = [slash] ++ c := rfl
          rw [hsc, List.getLast?_append_of_ne_nil _ hcne]
      rw [hdata, hlast2] at hlast
      rcases List.eq_nil_or_concat' c with hc2 | ⟨c2, lc, hc2⟩
      · exact hcne hc2
      · subst hc2
        simp at hlast
        exact hcs slash (by simp [hlast]) rfl

lemma isAbsStr_false_of_no_slash (f : String) (hf : f.data ≠ [])
    (hfs : ∀ ch ∈ f.data, ch ≠ slash) : isAbsStr f = false := by
  rcases hd : f.data with _ | ⟨c, t⟩
  · exact absurd hd hf
  · rw [isAbsStr, hd]
    simp only [decide_eq_false_iff_not]
    exact hfs c (by rw [hd]; simp)

lemma dirname_pJoin_file (A f : String) (hA : A.data ≠ [])
    (hA2 : A.data.getLast? = some slash → ∀ c ∈ A.data, c = slash)
    (hf : f.data ≠ []) (hfs : ∀ ch ∈ f.data, ch ≠ slash) :
    dirname (pJoin A f) = A := by
  have hfabs : isAbsStr f = false := isAbsStr_false_of_no_slash f hf hfs
  have hfr : ∀ ch ∈ f.data.reverse, ch ≠ slash := by
    intro ch hch
    exact hfs ch (List.mem_reverse.mp hch)
  rw [pJoin, hfabs]
  simp only [Bool.false_eq_true, if_false]
  by_cases hcond : (A.data = [] ∨ A.data.getLast? = some slash)
  · rw [if_pos hcond]
    have hslash : A.data.getLast? = some slash := by
      rcases hcond with h | h
      · exact absurd h hA
      · exact h
    have hall : ∀ c ∈ A.data, c = slash := hA2 hslash
    have hrep : A.data = List.replicate A.data.length slash := List.eq_replicate_of_mem hall
    have hk : 1 ≤ A.data.length := by
      rcases hd : A.data with _ | ⟨c, t⟩
      · exact absurd hd hA
      · simp
    have hd1 : (String.mk (A.data ++ f.data)).data.reverse =
        f.data.reverse ++ A.data.reverse := by simp [strMk_data]
    rw [dirname_eq _ _ _ hd1 hfr (Or.inr ?hh)]
    case hh =>
      rw [hrep, List.reverse_replicate]
      cases hn : A.data.length with
      | zero => omega
      | succ m => simp [List.replicate]
    have hany : (A.data.reverse.any fun c => c ≠ slash) = false := by
      simp only [List.any_eq_false]
      intro x hx
      simp [hall x (List.mem_reverse.mp hx)]
    rw [if_neg (by simp; exact fun _ => hall)]
    exact String.ext (by simp [strMk_data])
  · rw [if_neg hcond]
    push_neg at hcond
    obtain ⟨hAne, hAlast⟩ := hcond
    obtain ⟨c, hc⟩ : ∃ c, A.data.getLast? = some c := by
      rcases hd : A.data with _ | ⟨x, t⟩
      · exact absurd hd hA
      · exact ⟨(x :: t).getLast (by simp), by rw [List.getLast?_eq_getLast]⟩
    have hcslash : c ≠ slash := by
      intro h
      rw [h] at hc
      exact hAlast hc
    have hd1 : (String.mk (A.data ++ slash :: f.data)).data.reverse =
        f.data.reverse ++ (slash :: A.data.reverse) := by
      simp [strMk_data]
    rw [dirname_eq _ _ _ hd1 hfr (Or.inr (by simp))]
    have hrevhead : A.data.reverse.head? = some c := by
      rw [List.head?_reverse]
      exact hc
    obtain ⟨t, ht⟩ : ∃ t, A.data.reverse = c :: t := by
      rcases hr : A.data.reverse with _ | ⟨x, t⟩
      · rw [hr] at hrevhead; cases hrevhead
      · rw [hr] at hrevhead
        simp at hrevhead
        exact ⟨t, by rw [hrevhead]⟩
    have hany : ((slash :: A.data.reverse).any fun ch => ch ≠ slash) = true := by
      simp only [List.any_cons]
      rw [ht]
      simp [hcslash]
    rw [if_pos ⟨by simp, hany⟩]
    have hdw : (slash :: A.data.reverse).dropWhile (fun ch => ch = slash) = A.data.reverse := by
      rw [List.dropWhile_cons]
      simp only [decide_True, if_true]
      rw [ht, List.dropWhile_cons]
      simp [hcslash]
    rw [hdw]
    exact String.ext (by simp [strMk_data])

lemma replicate_head? (k : Nat) (hk : 1 ≤ k) :
    (List.replicate k slash).head? = some slash := by
  cases k with
  | zero => omega
  | succ m => simp [List.replicate]

lemma intercalateSlash_rev_head (cs : List (List Char)) (h : cs ≠ []) (hg : GoodComps cs) :
    ∃ dc dt, (intercalateSlash cs).reverse = dc :: dt ∧ dc ≠ slash := by
  rcases List.eq_nil_or_concat' cs with hc | ⟨ds, d, hc⟩
  · exact absurd hc h
  · subst hc
    have hdne := (hg d (by simp)).1
    have hds := (hg d (by simp)).2
    rcases List.eq_nil_or_concat' d with hd2 | ⟨d2, dc, hd2⟩
    · exact absurd hd2 hdne
    · subst hd2
      by_cases h0 : ds = []
      · subst h0
        refine ⟨dc, d2.reverse, ?_, hds dc (by simp)⟩
        have hi : intercalateSlash ([] ++ [d2 ++ [dc]]) = d2 ++ [dc] := rfl
        rw [hi]
        simp
      · rw [intercalateSlash_snoc ds _ h0]
        refine ⟨dc, d2.reverse ++ [slash] ++ (intercalateSlash ds).reverse, ?_,
          hds dc (by simp)⟩
        simp

lemma shaped_dirname (A : String) (h : Shaped A) : Shaped (dirname A) := by
  obtain ⟨k, comps, hk, hg, hdata⟩ := h
  rcases List.eq_nil_or_concat' comps with hc | ⟨cs, c, hc⟩
  · subst hc
    have hsimp : A.data = List.replicate k slash := by
      simpa [intercalateSlash] using hdata
    rw [dirname_eq A [] (List.replicate k slash)
      (by rw [hsimp]; simp [List.reverse_replicate]) (by simp)
      (Or.inr (replicate_head? k hk))]
    rw [if_neg (by simp)]
    exact ⟨k, [], hk, fun c hc => absurd hc (List.not_mem_nil c),
      by simp [strMk_data, List.reverse_replicate, intercalateSlash]⟩
  · subst hc
    have hcne : c ≠ [] := (hg c (by simp)).1
    have hcs : ∀ ch ∈ c, ch ≠ slash := (hg c (by simp)).2
    have hcrev : ∀ ch ∈ c.reverse, ch ≠ slash := by
      intro ch hch; exact hcs ch (List.mem_reverse.mp hch)
    by_cases h0 : cs = []
    · subst h0
      have hsimp : A.data = List.replicate k slash ++ c := by
        have hi : intercalateSlash ([] ++ [c]) = c := rfl
        rw [hdata, hi]
      rw [dirname_eq A c.reverse (List.replicate k slash)
        (by rw [hsimp]; simp [List.reverse_replicate]) hcrev
        (Or.inr (replicate_head? k hk))]
      rw [if_neg (by simp)]
      exact ⟨k, [], hk, fun x hx => absurd hx (List.not_mem_nil x),
        by simp [strMk_data, List.reverse_replicate, intercalateSlash]⟩
    · obtain ⟨dc, dt, hdc, hdcs⟩ := intercalateSlash_rev_head cs h0
        (fun x hx => hg x (List.mem_append_left _ hx))
      have hsimp : A.data = List.replicate k slash ++ (intercalateSlash cs ++ slash :: c) := by
        rw [hdata, intercalateSlash_snoc cs c h0]
      have hrev : A.data.reverse =
          c.reverse ++ (slash :: ((intercalateSlash cs).reverse ++ List.replicate k slash)) := by
        rw [hsimp]
        simp [List.reverse_replicate]
      rw [dirname_eq A c.reverse _ hrev hcrev (Or.inr (by simp))]
      have hany : ((slash :: ((intercalateSlash cs).reverse ++ List.replicate k slash)).any
          fun ch => ch ≠ slash) = true := by
        simp only [List.any_cons, List.any_append]
        rw [hdc]
        simp [hdcs]
      rw [if_pos ⟨by simp, hany⟩]
      have hdw : ((slash :: ((intercalateSlash cs).reverse ++ List.replicate k slash)).dropWhile
          (fun ch => ch = slash)) = (intercalateSlash cs).reverse ++ List.replicate k slash := by
        rw [List.dropWhile_cons]
        simp only [decide_True, if_true]
        rw [hdc, List.cons_append, List.dropWhile_cons]
        simp [hdcs]
      rw [hdw]
      refine ⟨k, cs, hk, fun x hx => hg x (List.mem_append_left _ hx), ?_⟩
      rw [strMk_data]
      simp [List.reverse_replicate]

lemma dirname_abspath_pJoin (cwd p f : String) (hcwd : isAbsStr cwd = true)
    (hf : f.data ≠ []) (hfs : ∀ ch ∈ f.data, ch ≠ slash) :
    dirname (pJoin (dirname (abspath cwd p)) f) = dirname (abspath cwd p) := by
  have hs : Shaped (dirname (abspath cwd p)) :=
    shaped_dirname _ (abspath_shaped cwd p hcwd)
  obtain ⟨hne, hlast⟩ := shaped_props _ hs
  exact dirname_pJoin_file _ f hne hlast hf hfs

lemma lastCompRev_pJoin (a f : String) (hfs : ∀ ch ∈ f.data, ch ≠ slash) :
    lastCompRev (pJoin a f) = f.data.reverse := by
  have hfr : ∀ ch ∈ f.data.reverse, ch ≠ slash := by
    intro ch hch; exact hfs ch (List.mem_reverse.mp hch)
  by_cases hfa : isAbsStr f = true
  · exfalso
    rcases hd : f.data with _ | ⟨c, t⟩
    · rw [isAbsStr, hd] at hfa; cases hfa
    · rw [isAbsStr, hd] at hfa
      exact absurd (of_decide_eq_true hfa) (hfs c (by rw [hd]; simp))
  · rw [pJoin, if_neg hfa]
    by_cases hcond : (a.data = [] ∨ a.data.getLast? = some slash)
    · rw [if_pos hcond]
      rw [lastCompRev, strMk_data, List.reverse_append]
      rw [List.takeWhile_append_of_pos (by intro x hx; simpa using hfr x hx)]
      rcases hcond with h | h
      · simp [h]
      · have hh : a.data.reverse.head? = some slash := by
          rw [List.head?_reverse]; exact h
        rcases hr : a.data.reverse with _ | ⟨x, t⟩
        · simp
        · rw [hr] at hh
          simp at hh
          rw [List.takeWhile_cons]
          simp [hh]
    · rw [if_neg hcond]
      rw [lastCompRev, strMk_data]
      have hrw : (a.data ++ slash :: f.data).reverse =
          f.data.reverse ++ (slash :: a.data.reverse) := by simp
      rw [hrw]
      rw [List.takeWhile_append_of_pos (by intro x hx; simpa using hfr x hx)]
      rw [List.takeWhile_cons]
      simp

lemma pJoin_right_inj (a x y : String) (hx : isAbsStr x = false) (hy : isAbsStr y = false)
    (hxy : ¬ x = y) : ¬ pJoin a x = pJoin a y := by
  intro h
  rw [pJoin, pJoin, hx, hy] at h
  simp only [Bool.false_eq_true, if_false] at h
  by_cases hcond : (a.data = [] ∨ a.data.getLast? = some slash)
  · rw [if_pos hcond, if_pos hcond] at h
    have h2 := congrArg String.data h
    simp only [strMk_data] at h2
    exact hxy (String.ext (List.append_cancel_left h2))
  · rw [if_neg hcond, if_neg hcond] at h
    have h2 := congrArg String.data h
    simp only [strMk_data] at h2
    have h3 := List.append_cancel_left h2
    exact hxy (String.ext (by injection h3))

lemma pJoin_ne_of_lastComp (a b x y : String)
    (hxs : ∀ ch ∈ x.data, ch ≠ slash) (hys : ∀ ch ∈ y.data, ch ≠ slash)
    (hxy : ¬ x.data.reverse = y.data.reverse) : ¬ pJoin a x = pJoin b y := by
  intro h
  have h2 := congrArg lastCompRev h
  rw [lastCompRev_pJoin a x hxs, lastCompRev_pJoin b y hys] at h2
  exact hxy h2

lemma save_ipyvolumejs_run (w : World) (o : Oracle) (folderpath version : String)
    (hn : o.netFail (urlIpyvolume version) = false) :
    save_ipyvolumejs w o folderpath version false =
      ⟨Except.ok "ipyvolume.js",
        addPath (addPath w (pJoin folderpath "ipyvolume.js"))
          (pJoin (dirname (pJoin folderpath "ipyvolume.js")) "three.js"),
        [Event.downloadFile (urlIpyvolume version) (pJoin folderpath "ipyvolume.js"),
          Event.copyFile (threejsSrc o)
            (pJoin (dirname (pJoin folderpath "ipyvolume.js")) "three.js")]⟩ := by
  simp [save_ipyvolumejs, download_to_file, hn, Eff.andThen]

lemma save_requirejs_run (w : World) (o : Oracle) (folderpath version : String)
    (hn : o.netFail (urlRequire version) = false) :
    save_requirejs w o folderpath version =
      ⟨Except.ok ("require.min.v" ++ version ++ ".js"),
        addPath w (pJoin folderpath ("require.min.v" ++ version ++ ".js")),
        [Event.downloadFile (urlRequire version)
          (pJoin folderpath ("require.min.v" ++ version ++ ".js"))]⟩ := by
  simp [save_requirejs, download_to_file, hn, Eff.andThen]

lemma save_embed_js_run (w : World) (o : Oracle) (folderpath version : String)
    (hn : o.netFail (urlEmbed version) = false) :
    save_embed_js w o folderpath version =
      ⟨Except.ok (embedFname version),
        addPath w (pJoin folderpath (embedFname version)),
        [Event.downloadFile (urlEmbed version) (pJoin folderpath (embedFname version))]⟩ := by
  simp [save_embed_js, download_to_file, hn, Eff.andThen]

lemma save_font_awesome_run (w : World) (o : Oracle) (dirpath version top : String)
    (rest : List String)
    (hex : pexists w (pJoin dirpath (faFolderName version)) = false)
    (hn : o.netFail (urlFontAwesome version) = false)
    (hzip : o.zipList (urlFontAwesome version) = some (top :: rest)) :
    save_font_awesome w o dirpath version =
      ⟨Except.ok (faFolderName version),
        addPath (removePath (addPaths w ((top :: rest).map (fun n => pJoin dirpath n)))
          (pJoin dirpath top)) (pJoin dirpath (faFolderName version)),
        [Event.downloadBytes (urlFontAwesome version), Event.extractAll dirpath,
          Event.renameDir (pJoin dirpath top) (pJoin dirpath (faFolderName version))]⟩ := by
  simp [save_font_awesome, hex, download_to_bytes, hn, Eff.andThen, hzip]

lemma andThen_ok_mk {α β : Type} (v : α) (w : World) (t : List Event)
    (f : α → World → Eff β) :
    Eff.andThen ⟨Except.ok v, w, t⟩ f = ⟨(f v w).res, (f v w).world, t ++ (f v w).trace⟩ := rfl

lemma data_embedFname (v : String) :
    (embedFname v).data = 'e' :: ("mbed-amd_v".data ++ (v.drop 1).data ++ ".js".data) := by
  rw [embedFname, strData_append, strData_append]
  have he : "embed-amd_v".data = 'e' :: "mbed-amd_v".data := by decide
  rw [he]
  simp

lemma isAbsStr_embedFname (v : String) : isAbsStr (embedFname v) = false := by
  rw [isAbsStr, data_embedFname]
  show decide ('e' = slash) = false
  decide

lemma faName_ne_embedFname (v : String) : ¬ faFolderName "4.7.0" = embedFname v := by
  intro h
  have h2 : (faFolderName "4.7.0").data.head? = (embedFname v).data.head? := by rw [h]
  rw [data_embedFname] at h2
  simp only [List.head?_cons] at h2
  have h3 : (faFolderName "4.7.0").data.head? = some 'f' := by decide
  rw [h3] at h2
  simp at h2

lemma embed_html_bundled_run (w : World) (o : Oracle) (a : EmbedArgs) (top html : String)
    (rest : List String)
    (hcwd : isAbsStr w.cwd = true)
    (hoff : a.offline = true) (hreq : a.offline_req = true) (hdev : a.devmode = false)
    (hdir : pexists w (dirname (abspath w.cwd a.filepath)) = true)
    (hesc : strStartsWith (relScriptRaw w a) ".." = false)
    (hn1 : o.netFail (urlIpyvolume o.versionJS) = false)
    (hn2 : o.netFail (urlRequire "2.3.4") = false)
    (hn3 : o.netFail (urlEmbed o.htmlManagerVersion) = false)
    (hn4 : o.netFail (urlFontAwesome "4.7.0") = false)
    (hfa : pexists w (pJoin (scriptsAbs a) (faFolderName "4.7.0")) = false)
    (hzip : o.zipList (urlFontAwesome "4.7.0") = some (top :: rest))
    (hfmt : pyFormat a.template (embedTemplateOpts a ++ [("snippet",
        wrapperSnippet (relScriptNorm w a) (faFolderName "4.7.0")
          ("require.min.v" ++ "2.3.4" ++ ".js")
          (o.snippet (relScriptNorm w a ++ embedFname o.htmlManagerVersion)))]) =
      Except.ok html) :
    (embed_html w o a).res = Except.ok () ∧
    (embed_html w o a).trace =
      [Event.downloadFile (urlIpyvolume o.versionJS)
          (pJoin (dirname (abspath w.cwd a.filepath)) "ipyvolume.js"),
        Event.copyFile (threejsSrc o) (pJoin (dirname (abspath w.cwd a.filepath)) "three.js"),
        Event.downloadFile (urlRequire "2.3.4")
          (pJoin (scriptsAbs a) ("require.min.v" ++ "2.3.4" ++ ".js")),
        Event.downloadFile (urlEmbed o.htmlManagerVersion)
          (pJoin (scriptsAbs a) (embedFname o.htmlManagerVersion)),
        Event.downloadBytes (urlFontAwesome "4.7.0"),
        Event.extractAll (scriptsAbs a),
        Event.renameDir (pJoin (scriptsAbs a) top)
          (pJoin (scriptsAbs a) (faFolderName "4.7.0")),
        Event.writeFile a.filepath html] := by
  have hdj : dirname (pJoin (dirname (abspath w.cwd a.filepath)) "ipyvolume.js") =
      dirname (abspath w.cwd a.filepath) :=
    dirname_abspath_pJoin w.cwd a.filepath "ipyvolume.js" hcwd (by decide) (by decide)
  have hne1 : ¬ pJoin (scriptsAbs a) (faFolderName "4.7.0") =
      pJoin (scriptsAbs a) (embedFname o.htmlManagerVersion) :=
    pJoin_right_inj _ _ _ (by decide) (isAbsStr_embedFname _) (faName_ne_embedFname _)
  have hne2 : ¬ pJoin (scriptsAbs a) (faFolderName "4.7.0") =
      pJoin (scriptsAbs a) ("require.min.v" ++ "2.3.4" ++ ".js") :=
    pJoin_right_inj _ _ _ (by decide) (by decide) (by decide)
  have hne3 : ¬ pJoin (scriptsAbs a) (faFolderName "4.7.0") =
      pJoin (dirname (abspath w.cwd a.filepath)) "three.js" :=
    pJoin_ne_of_lastComp _ _ _ _ (by decide) (by decide) (by decide)
  have hne4 : ¬ pJoin (scriptsAbs a) (faFolderName "4.7.0") =
      pJoin (dirname (abspath w.cwd a.filepath)) "ipyvolume.js" :=
    pJoin_ne_of_lastComp _ _ _ _ (by decide) (by decide) (by decide)
  have hfaD : pexists (addPath (addPath (addPath (addPath w
      (pJoin (dirname (abspath w.cwd a.filepath)) "ipyvolume.js"))
      (pJoin (dirname (abspath w.cwd a.filepath)) "three.js"))
      (pJoin (scriptsAbs a) ("require.min.v" ++ "2.3.4" ++ ".js")))
      (pJoin (scriptsAbs a) (embedFname o.htmlManagerVersion)))
      (pJoin (scriptsAbs a) (faFolderName "4.7.0")) = false := by
    rw [← Bool.not_eq_true]
    simp only [pexists_addPath]
    push_neg
    exact ⟨hne1, hne2, hne3, hne4, by simp [hfa]⟩
  constructor
  · simp only [embed_html, if_neg (show ¬ ((!pexists w (dirname (abspath w.cwd a.filepath)) && a.makedirs) = true)
        from by simp [hdir]),
      andThen_ok_mk, hoff, hreq, hdev, Bool.not_true, Bool.false_eq_true, if_false, if_true,
      if_neg (show ¬ strStartsWith (relScriptRaw w a) ".." = true from by simp [hesc]),
      save_ipyvolumejs_run _ _ _ _ hn1, hdj, save_requirejs_run _ _ _ _ hn2,
      save_embed_js_run _ _ _ _ hn3,
      save_font_awesome_run _ _ _ _ _ _ hfaD hn4 hzip,
      embedTail, hfmt]
  · simp only [embed_html, if_neg (show ¬ ((!pexists w (dirname (abspath w.cwd a.filepath)) && a.makedirs) = true)
        from by simp [hdir]),
      andThen_ok_mk, hoff, hreq, hdev, Bool.not_true, Bool.false_eq_true, if_false, if_true,
      if_neg (show ¬ strStartsWith (relScriptRaw w a) ".." = true from by simp [hesc]),
      save_ipyvolumejs_run _ _ _ _ hn1, hdj, save_requirejs_run _ _ _ _ hn2,
      save_embed_js_run _ _ _ _ hn3,
      save_font_awesome_run _ _ _ _ _ _ hfaD hn4 hzip,
      embedTail, hfmt, List.nil_append, List.cons_append, List.append_assoc]

/-- The rendered page of a successful offline-bundled run: the template
applied to the merged options, the snippet being wrapped with asset URLs
that are all the relative script prefix followed by the asset's
filename. -/
def bundledHtml (w : World) (o : Oracle) (a : EmbedArgs) : Except PyErr String :=
  pyFormat a.template (embedTemplateOpts a ++ [("snippet",
    wrapperSnippet (relScriptNorm w a) (faFolderName "4.7.0")
      ("require.min.v" ++ "2.3.4" ++ ".js")
      (o.snippet (relScriptNorm w a ++ embedFname o.htmlManagerVersion)))])

/-- Claim C4: in a successful offline-bundled run, `embed_html` places
`ipyvolume.js` and `three.js` in the output file's directory and places
the require script, the embedding script and the `font-awesome-4.7.0`
folder in the resolved scripts path; moreover in online mode `three.js`
is likewise copied next to the output file, so the graphics runtime lands
beside the output file in both modes. -/
theorem embed_html_asset_layout (w : World) (o : Oracle) (a : EmbedArgs) :
    (∀ top html rest,
      isAbsStr w.cwd = true → a.offline = true → a.offline_req = true → a.devmode = false →
      pexists w (dirname (abspath w.cwd a.filepath)) = true →
      strStartsWith (relScriptRaw w a) ".." = false →
      o.netFail (urlIpyvolume o.versionJS) = false →
      o.netFail (urlRequire "2.3.4") = false →
      o.netFail (urlEmbed o.htmlManagerVersion) = false →
      o.netFail (urlFontAwesome "4.7.0") = false →
      pexists w (pJoin (scriptsAbs a) (faFolderName "4.7.0")) = false →
      o.zipList (urlFontAwesome "4.7.0") = some (top :: rest) →
      bundledHtml w o a = Except.ok html →
      (Event.downloadFile (urlIpyvolume o.versionJS)
          (pJoin (dirname (abspath w.cwd a.filepath)) "ipyvolume.js") ∈
          (embed_html w o a).trace ∧
        Event.copyFile (threejsSrc o)
          (pJoin (dirname (abspath w.cwd a.filepath)) "three.js") ∈ (embed_html w o a).trace ∧
        Event.downloadFile (urlRequire "2.3.4")
          (pJoin (scriptsAbs a) ("require.min.v" ++ "2.3.4" ++ ".js")) ∈
          (embed_html w o a).trace ∧
        Event.downloadFile (urlEmbed o.htmlManagerVersion)
          (pJoin (scriptsAbs a) (embedFname o.htmlManagerVersion)) ∈
          (embed_html w o a).trace ∧
        Event.renameDir (pJoin (scriptsAbs a) top)
          (pJoin (scriptsAbs a) (faFolderName "4.7.0")) ∈ (embed_html w o a).trace ∧
        (embed_html w o a).res = Except.ok ())) ∧
    (a.offline = false →
      Event.copyFile (threejsSrc o) (pJoin (dirname a.filepath) "three.js") ∈
        (embed_html w o a).trace) := by
  constructor
  · intro top html rest hcwd hoff hreq hdev hdir hesc hn1 hn2 hn3 hn4 hfa hzip hfmt
    rw [bundledHtml] at hfmt
    obtain ⟨hres, htr⟩ := embed_html_bundled_run w o a top html rest hcwd hoff hreq hdev hdir
      hesc hn1 hn2 hn3 hn4 hfa hzip hfmt
    rw [htr]
    exact ⟨by simp, by simp, by simp, by simp, by simp, hres⟩
  · intro hoffF
    unfold embed_html
    by_cases hmk : ((!pexists w (dirname (abspath w.cwd a.filepath)) && a.makedirs) = true)
    · simp [hmk, Eff.andThen, hoffF]
    · simp [hmk, Eff.andThen, hoffF]

lemma commonLen_self (l : List (List Char)) : commonLen l l = l.length := by
  induction l with
  | nil => rfl
  | cons a t ih => simp [commonLen, ih]

lemma relpath_self (cwd p start : String) (h : abspath cwd p = abspath cwd start) :
    relpath cwd p start = "." := by
  rw [relpath, h]
  simp [commonLen_self, List.drop_length]

/-- Claim C9: when the scripts path resolves to exactly the output file's
directory the relative script prefix is the empty string; for any other
raw relative path the prefix is that path with a trailing separator; and
the page a successful bundled run writes is rendered from the snippet
wrapper in which every asset URL is the prefix followed by the asset
filename (see `bundledHtml` and `wrapperSnippet`). -/
theorem embed_html_script_urls (w : World) (o : Oracle) (a : EmbedArgs) :
    (abspath w.cwd (scriptsAbs a) = abspath w.cwd (dirname a.filepath) →
      relScriptNorm w a = "") ∧
    (relScriptRaw w a ≠ "." → relScriptNorm w a = relScriptRaw w a ++ "/") ∧
    (∀ top html rest,
      isAbsStr w.cwd = true → a.offline = true → a.offline_req = true → a.devmode = false →
      pexists w (dirname (abspath w.cwd a.filepath)) = true →
      strStartsWith (relScriptRaw w a) ".." = false →
      o.netFail (urlIpyvolume o.versionJS) = false →
      o.netFail (urlRequire "2.3.4") = false →
      o.netFail (urlEmbed o.htmlManagerVersion) = false →
      o.netFail (urlFontAwesome "4.7.0") = false →
      pexists w (pJoin (scriptsAbs a) (faFolderName "4.7.0")) = false →
      o.zipList (urlFontAwesome "4.7.0") = some (top :: rest) →
      bundledHtml w o a = Except.ok html →
      Event.writeFile a.filepath html ∈ (embed_html w o a).trace) := by
  refine ⟨?_, ?_, ?_⟩
  · intro h
    have h2 : relScriptRaw w a = "." := by
      rw [relScriptRaw]
      exact relpath_self _ _ _ h
    rw [relScriptNorm, if_pos h2]
  · intro h
    rw [relScriptNorm, if_neg h]
  · intro top html rest hcwd hoff hreq hdev hdir hesc hn1 hn2 hn3 hn4 hfa hzip hfmt
    rw [bundledHtml] at hfmt
    obtain ⟨hres, htr⟩ := embed_html_bundled_run w o a top html rest hcwd hoff hreq hdev hdir
      hesc hn1 hn2 hn3 hn4 hfa hzip hfmt
    rw [htr]
    simp

def c4World : World := ⟨"/", ["/out"]⟩

def c4Args : EmbedArgs :=
  { filepath := "/out/page.html", offline := true, scripts_path := "scripts" }

/-- The online-mode argument record used by witness instantiations. -/
def c4bArgs : EmbedArgs := { filepath := "/out/page.html" }

/-- The page rendered by the concrete bundled witness run. -/
def c4Html : String :=
  match bundledHtml c4World wOracle c4Args with
  | Except.ok h => h
  | Except.error _ => ""

set_option maxRecDepth 8000 in
theorem embed_html_asset_layout_witness :
    bundledHtml c4World wOracle c4Args = Except.ok c4Html ∧
    (Event.downloadFile (urlIpyvolume wOracle.versionJS)
        (pJoin (dirname (abspath c4World.cwd c4Args.filepath)) "ipyvolume.js") ∈
        (embed_html c4World wOracle c4Args).trace ∧
      Event.copyFile (threejsSrc wOracle)
        (pJoin (dirname (abspath c4World.cwd c4Args.filepath)) "three.js") ∈
        (embed_html c4World wOracle c4Args).trace ∧
      Event.downloadFile (urlRequire "2.3.4")
        (pJoin (scriptsAbs c4Args) ("require.min.v" ++ "2.3.4" ++ ".js")) ∈
        (embed_html c4World wOracle c4Args).trace ∧
      Event.downloadFile (urlEmbed wOracle.htmlManagerVersion)
        (pJoin (scriptsAbs c4Args) (embedFname wOracle.htmlManagerVersion)) ∈
        (embed_html c4World wOracle c4Args).trace ∧
      Event.renameDir (pJoin (scriptsAbs c4Args) "font-awesome-4.7.0/")
        (pJoin (scriptsAbs c4Args) (faFolderName "4.7.0")) ∈
        (embed_html c4World wOracle c4Args).trace ∧
      (embed_html c4World wOracle c4Args).res = Except.ok ()) ∧
    Event.copyFile (threejsSrc wOracle) (pJoin (dirname c4bArgs.filepath) "three.js") ∈
      (embed_html c4World wOracle c4bArgs).trace :=
  ⟨by decide,
    (embed_html_asset_layout c4World wOracle c4Args).1 "font-awesome-4.7.0/" c4Html
      ["font-awesome-4.7.0/css/font-awesome.min.css"] (by decide) rfl rfl rfl (by decide)
      (by decide) rfl rfl rfl rfl (by decide) rfl (by decide),
    (embed_html_asset_layout c4World wOracle c4bArgs).2 rfl⟩

def c9Args : EmbedArgs :=
  { filepath := "/out/page.html", offline := true, scripts_path := "." }

set_option maxRecDepth 8000 in
theorem embed_html_script_urls_witness :
    abspath c4World.cwd (scriptsAbs c9Args) = abspath c4World.cwd (dirname c9Args.filepath) ∧
    relScriptNorm c4World c9Args = "" ∧
    relScriptRaw c4World c4Args ≠ "." ∧
    relScriptNorm c4World c4Args = relScriptRaw c4World c4Args ++ "/" ∧
    Event.writeFile c4Args.filepath c4Html ∈ (embed_html c4World wOracle c4Args).trace :=
  ⟨by decide, (embed_html_script_urls c4World wOracle c9Args).1 (by decide),
    by decide, (embed_html_script_urls c4World wOracle c4Args).2.1 (by decide),
    (embed_html_script_urls c4World wOracle c4Args).2.2 "font-awesome-4.7.0/" c4Html
      ["font-awesome-4.7.0/css/font-awesome.min.css"] (by decide) rfl rfl rfl (by decide)
      (by decide) rfl rfl rfl rfl (by decide) rfl (by decide)⟩
